import Mathlib

/-!
Shallow embedding of `src/app_render.py` (Chirag's App Scraper): a Flask
service that classifies a store URL, extracts an app identifier, fetches
reviews through external scraper libraries (falling back to fixed demo
data on any failure), and serializes the result to CSV.

External effects are made explicit parameters:
* the Google Play library outcome (`Fetch GPData`),
* the App Store library outcome (`Nat → Fetch ASData`, a function of the
  `how_many` count the code requests),
* `datetime.now()` timestamps (`now`, `ts` strings).
All machine-level container values (Python `str`, `list`, `dict`) are
modelled with `String`/`List`/structures; CPython integers with `Int`/`Nat`.
-/

namespace AppRender

/-! ### Python string primitives used by the code -/

/-- Python `pat in hay` substring containment, on character lists. -/
def listContainsSub (pat : List Char) : List Char → Bool
  | [] => pat.isEmpty
  | c :: rest => pat.isPrefixOf (c :: rest) || listContainsSub pat rest

/-- Python `pat in hay` on strings. -/
def strContains (hay pat : String) : Bool :=
  listContainsSub pat.data hay.data

/-- Python `str.strip()` (leading and trailing whitespace removed). -/
def pyStrip (s : String) : String :=
  String.mk (((s.data.dropWhile Char.isWhitespace).reverse.dropWhile Char.isWhitespace).reverse)

/-- Characters strictly after the first occurrence of `sep`, if any. -/
def afterFirst (sep : Char) : List Char → Option (List Char)
  | [] => none
  | c :: rest => if c = sep then some rest else afterFirst sep rest

/-- Split a character list on a separator character (no separator kept). -/
def splitOnChar (sep : Char) : List Char → List (List Char)
  | [] => [[]]
  | c :: rest =>
      match splitOnChar sep rest with
      | h :: t => if c = sep then [] :: h :: t else (c :: h) :: t
      | [] => if c = sep then [[], []] else [[c]]

/-! ### Platform detection (`ReviewScraper.detect_platform`) -/

/-- The two storefronts the code knows; `detect_platform` returns `none`
(Python `None`) for every other URL. -/
inductive Platform where
  | google_play
  | app_store
deriving DecidableEq

/-- Display labels used in review records
(`'Google Play Store' if platform == 'google_play' else 'Apple App Store'`). -/
def displayName : Platform → String
  | Platform.google_play => "Google Play Store"
  | Platform.app_store => "Apple App Store"

/-- `ReviewScraper.detect_platform`: substring tests, Google checked first. -/
def detect_platform (url : String) : Option Platform :=
  if strContains url "play.google.com" then some Platform.google_play
  else if strContains url "apps.apple.com" || strContains url "itunes.apple.com" then
    some Platform.app_store
  else none

/-! ### The two regex searches of `ReviewScraper.extract_app_id`

`re.search(r'id=([^&]+)', url)` and `re.search(r'id(\d+)', url)`: scan for
the leftmost position where the literal token matches and at least one
character satisfying the capture-class follows; the capture group is the
maximal such run (the `+` quantifier is greedy and ends the pattern). -/

/-- Attempt the pattern `tok` + one-or-more `pred` characters at the head. -/
def matchTokThen (tok : List Char) (pred : Char → Bool) (cs : List Char) : Option (List Char) :=
  if tok.isPrefixOf cs then
    if (cs.drop tok.length).takeWhile pred = [] then none
    else some ((cs.drop tok.length).takeWhile pred)
  else none

/-- `re.search` for `tok` + one-or-more `pred` characters: leftmost match. -/
def reSearchTok (tok : List Char) (pred : Char → Bool) : List Char → Option (List Char)
  | [] => none
  | c :: rest =>
      match matchTokThen tok pred (c :: rest) with
      | some cap => some cap
      | none => reSearchTok tok pred rest

/-- `ReviewScraper.extract_app_id` (the function is only reached with one of
the two detected platforms; the trailing `return None` is dead there). -/
def extract_app_id (url : String) : Platform → Option String
  | Platform.google_play =>
      (reSearchTok ['i', 'd', '='] (fun c => c != '&') url.data).map String.mk
  | Platform.app_store =>
      (reSearchTok ['i', 'd'] Char.isDigit url.data).map String.mk

/-- The value of the URL's `id` query parameter, following the claim's own
words: the query string is what follows the first `?`, parameters are
`&`-separated `key=value` pairs, and the `id` parameter is the first pair
whose key is exactly `id`.  Used to compare the code's extraction against
the specified behaviour; not a function of the source. -/
def idQueryParam (url : String) : Option String :=
  match afterFirst '?' url.data with
  | none => none
  | some query =>
      ((splitOnChar '&' query).findSome? fun pair =>
        match afterFirst '=' pair with
        | none => none
        | some v => if pair.takeWhile (fun c => c != '=') = ['i', 'd'] then some v else none).map
        String.mk

/-! ### Review records and external library data -/

/-- One normalized review, the dict each fetcher appends to its list.
`rating`/`helpful_count` are CPython ints (`Int`); the dates are the
already-`strftime`-formatted strings the code stores. -/
structure ReviewRecord where
  app_name : String
  reviewer_name : String
  rating : Int
  review_text : String
  review_date : String
  helpful_count : Int
  platform : String
deriving DecidableEq

/-- One raw Google Play review as consumed by the code: the `userName`,
`score`, `content`, `thumbsUpCount` fields and the `at` datetime already
rendered with `strftime('%Y-%m-%d %H:%M:%S')` (`at_fmt`).  A thumbs-up
count is a tally, modelled `Nat`. -/
structure GPReview where
  userName : String
  score : Int
  content : String
  at_fmt : String
  thumbsUpCount : Nat
deriving DecidableEq

/-- What a successful Google Play library interaction yields: the app's
`title` from `app(app_id)` and the list from `reviews_all(...)`. -/
structure GPData where
  title : String
  result : List GPReview
deriving DecidableEq

/-- One raw App Store review as consumed by the code: `userName`, `rating`,
`review`, and the `date` either absent/falsy (`none`, the code stores `''`)
or already `strftime`-formatted. -/
structure ASReview where
  userName : String
  rating : Int
  review : String
  date : Option String
deriving DecidableEq

/-- What a successful App Store library interaction yields:
`scraper.app_name` (possibly `None`/empty, hence `Option`) and
`scraper.reviews`. -/
structure ASData where
  app_name : Option String
  reviews : List ASReview
deriving DecidableEq

/-- Outcome of invoking an external scraping library: the import fails
(`except ImportError`), some other exception is raised (`except Exception`),
or it returns data. -/
inductive Fetch (α : Type) where
  | importError
  | error (msg : String)
  | ok (val : α)

/-- Whether the external interaction failed (either `except` arm). -/
def Fetch.isFailure {α : Type} : Fetch α → Bool
  | Fetch.ok _ => false
  | Fetch.importError => true
  | Fetch.error _ => true

/-! ### `ReviewScraper._get_demo_data` and the fetchers -/

/-- `ReviewScraper._get_demo_data`: the fixed 3-record fallback dataset.
`now` is `datetime.now().strftime('%Y-%m-%d %H:%M:%S')`. -/
def get_demo_data (platform : Platform) (app_id : String) (now : String) : List ReviewRecord :=
  let platform_name := displayName platform
  [ { app_name := "Demo App (" ++ app_id ++ ")", reviewer_name := "Demo User 1", rating := 5,
      review_text := "Great app! Works perfectly and has a beautiful interface.",
      review_date := now, helpful_count := 15, platform := platform_name },
    { app_name := "Demo App (" ++ app_id ++ ")", reviewer_name := "Demo User 2", rating := 4,
      review_text := "Very useful app. The yellow theme looks amazing!",
      review_date := now, helpful_count := 8, platform := platform_name },
    { app_name := "Demo App (" ++ app_id ++ ")", reviewer_name := "Demo User 3", rating := 5,
      review_text := "Excellent functionality and easy to use. Highly recommended!",
      review_date := now, helpful_count := 22, platform := platform_name } ]

/-- Python truthiness of the `max_reviews` JSON value (`None` or an int). -/
def truthyNat : Option Nat → Bool
  | none => false
  | some n => n != 0

/-- `max_reviews or 500`: the count the code asks the App Store library for. -/
def how_many (mx : Option Nat) : Nat :=
  match mx with
  | none => 500
  | some n => if n != 0 then n else 500

/-- The dict built for one Google Play review inside the `for` loop. -/
def gpToRecord (app_name : String) (r : GPReview) : ReviewRecord :=
  { app_name := app_name, reviewer_name := r.userName, rating := r.score,
    review_text := r.content, review_date := r.at_fmt,
    helpful_count := (r.thumbsUpCount : Int), platform := "Google Play Store" }

/-- `ReviewScraper.scrape_google_play_reviews`: on success, clamp the
upstream list with `if max_reviews and len(result) > max_reviews:
result = result[:max_reviews]`, then map each review; on either `except`
arm, return `_get_demo_data('google_play', app_id)`. -/
def scrape_google_play_reviews (app_id : String) (max_reviews : Option Nat)
    (src : Fetch GPData) (now : String) : List ReviewRecord :=
  match src with
  | Fetch.ok d =>
      let result :=
        if truthyNat max_reviews = true ∧ max_reviews.getD 0 < d.result.length then
          d.result.take (max_reviews.getD 0)
        else d.result
      result.map (gpToRecord d.title)
  | Fetch.importError => get_demo_data Platform.google_play app_id now
  | Fetch.error _ => get_demo_data Platform.google_play app_id now

/-- `scraper.app_name or f"App ID {app_id}"`. -/
def resolveASName (nm : Option String) (app_id : String) : String :=
  match nm with
  | some s => if s != "" then s else "App ID " ++ app_id
  | none => "App ID " ++ app_id

/-- The dict built for one App Store review: `helpful_count` is the literal
`0` ("App Store doesn't provide this"), the date `''` when falsy. -/
def asToRecord (app_name : String) (r : ASReview) : ReviewRecord :=
  { app_name := app_name, reviewer_name := r.userName, rating := r.rating,
    review_text := r.review, review_date := r.date.getD "", helpful_count := 0,
    platform := "Apple App Store" }

/-- `ReviewScraper.scrape_app_store_reviews`: asks the library for
`how_many = max_reviews or 500` reviews, then maps every entry of
`scraper.reviews` (no local truncation); on either `except` arm, returns
`_get_demo_data('app_store', app_id)`. -/
def scrape_app_store_reviews (app_id : String) (max_reviews : Option Nat)
    (src : Nat → Fetch ASData) (now : String) : List ReviewRecord :=
  match src (how_many max_reviews) with
  | Fetch.ok d => d.reviews.map (asToRecord (resolveASName d.app_name app_id))
  | Fetch.importError => get_demo_data Platform.app_store app_id now
  | Fetch.error _ => get_demo_data Platform.app_store app_id now

/-- `ReviewScraper.scrape_reviews`: detect the platform, extract the id,
dispatch; the two `raise ValueError(...)` sites become `Except.error`
carrying the exact exception message. -/
def scrape_reviews (url : String) (mx : Option Nat) (g : Fetch GPData)
    (a : Nat → Fetch ASData) (now : String) : Except String (List ReviewRecord) :=
  match detect_platform url with
  | none => Except.error "Unsupported URL. Please provide a Google Play Store or Apple App Store URL."
  | some platform =>
      match extract_app_id url platform with
      | none => Except.error "Could not extract app ID from URL."
      | some app_id =>
          match platform with
          | Platform.google_play => Except.ok (scrape_google_play_reviews app_id mx g now)
          | Platform.app_store => Except.ok (scrape_app_store_reviews app_id mx a now)

/-! ### URL validation and the `/scrape` handler -/

/-- Characters `urllib.parse` accepts inside a scheme. -/
def isSchemeChar (c : Char) : Bool :=
  c.isAlphanum || c = '+' || c = '-' || c = '.'

/-- Split at the first `:`, keeping both sides. -/
def firstColonSplit : List Char → Option (List Char × List Char)
  | [] => none
  | c :: rest =>
      if c = ':' then some ([], rest)
      else (firstColonSplit rest).map fun p => (c :: p.1, p.2)

/-- `urlparse`'s scheme recognition: a non-empty run of scheme characters,
starting with a letter, before the first `:`; otherwise no scheme. -/
def urlparseSchemeRest (url : List Char) : List Char × List Char :=
  match firstColonSplit url with
  | some (before, after) =>
      match before with
      | [] => ([], url)
      | c :: cs => if c.isAlpha && (c :: cs).all isSchemeChar then (c :: cs, after) else ([], url)
  | none => ([], url)

/-- `urlparse`'s netloc: only present when the remainder starts `//`; runs
to the next `/`, `?` or `#`. -/
def urlparseNetloc (rest : List Char) : List Char :=
  if ['/', '/'].isPrefixOf rest then
    (rest.drop 2).takeWhile fun c => c != '/' && c != '?' && c != '#'
  else []

/-- The handler's URL validation: `parsed.scheme` and `parsed.netloc` both
non-empty. -/
def validURLFormat (url : String) : Bool :=
  let p := urlparseSchemeRest url.data
  !p.1.isEmpty && !(urlparseNetloc p.2).isEmpty

/-- `reviews[0]['app_name'].replace(' ', '_').replace('/', '_')[:50]`. -/
def sanitize_app_name (s : String) : String :=
  String.mk (((s.data.map fun c => if c = ' ' then '_' else c).map
    fun c => if c = '/' then '_' else c).take 50)

/-- The JSON reply of `POST /scrape`: the 200 success payload, or an error
body with its HTTP status code. -/
inductive ScrapeResp where
  | success (message filename : String) (review_count : Nat) (app_name : String)
  | failure (status : Nat) (error : String)
deriving DecidableEq

/-- HTTP status of a `/scrape` reply. -/
def ScrapeResp.status : ScrapeResp → Nat
  | ScrapeResp.success _ _ _ _ => 200
  | ScrapeResp.failure s _ => s

/-- The `scrape` route handler.  `rawUrl`/`mx` are `data.get('url', '')` and
`data.get('max_reviews', 500)`; `ts` is `datetime.now().strftime('%Y%m%d_%H%M%S')`.
The uncaught `ValueError`s from `scrape_reviews` land in the route's
`except Exception` arm: status 500 with `str(e)` echoed.  The CSV file write
itself is modelled separately by `writeCSV`. -/
def scrapeHandler (rawUrl : String) (mx : Option Nat) (g : Fetch GPData)
    (a : Nat → Fetch ASData) (now ts : String) : ScrapeResp :=
  let url := pyStrip rawUrl
  if url = "" then ScrapeResp.failure 400 "URL is required"
  else if validURLFormat url = false then ScrapeResp.failure 400 "Invalid URL format"
  else
    match scrape_reviews url mx g a now with
    | Except.error e => ScrapeResp.failure 500 e
    | Except.ok [] => ScrapeResp.failure 404 "No reviews found or unable to scrape"
    | Except.ok (r0 :: rest) =>
        ScrapeResp.success
          ("Successfully scraped " ++ toString (r0 :: rest).length ++ " reviews")
          ("reviews_" ++ sanitize_app_name r0.app_name ++ "_" ++ ts ++ ".csv")
          (r0 :: rest).length r0.app_name

/-! ### CSV export (`pd.DataFrame(reviews); df.to_csv(filepath, index=False,
encoding='utf-8')`) and a CSV reader

`DataFrame` built from a list of identical-keyed dicts takes its column
order from the insertion order of the first dict's keys; `to_csv` writes a
header row, `\n` line terminators (one after every row, the last included),
and minimal quoting: a field is quoted exactly when it contains the
delimiter, the quote character, or a line break, with embedded quotes
doubled.  Integer columns are printed in decimal.  The writer is modelled
for the non-empty lists the handler actually writes (on an empty list the
handler answers 404 before reaching the writer, and pandas could infer no
columns). -/

/-- The CSV header: the `ReviewRecord` dict keys, in insertion order. -/
def reviewHeader : List String :=
  ["app_name", "reviewer_name", "rating", "review_text", "review_date",
   "helpful_count", "platform"]

/-- One record's cells, in header order, ints rendered in decimal. -/
def recordFields (r : ReviewRecord) : List String :=
  [r.app_name, r.reviewer_name, toString r.rating, r.review_text, r.review_date,
   toString r.helpful_count, r.platform]

/-- Minimal quoting: does the field need surrounding quotes? -/
def csvNeedsQuote (s : String) : Bool :=
  s.data.any fun c => c = ',' || c = '"' || c = '\n' || c = '\r'

/-- Double every embedded quote character. -/
def csvEscapeChars : List Char → List Char
  | [] => []
  | c :: rest => if c = '"' then '"' :: '"' :: csvEscapeChars rest else c :: csvEscapeChars rest

/-- Serialize one field, quoting it when needed. -/
def csvField (s : String) : List Char :=
  if csvNeedsQuote s then '"' :: (csvEscapeChars s.data ++ ['"']) else s.data

/-- Serialize one row: comma-joined fields. -/
def csvRow : List String → List Char
  | [] => []
  | [f] => csvField f
  | f :: g :: rest => csvField f ++ ',' :: csvRow (g :: rest)

/-- Serialize rows: each row followed by the `\n` line terminator. -/
def csvRows : List (List String) → List Char
  | [] => []
  | r :: rest => csvRow r ++ '\n' :: csvRows rest

/-- The CSV text written for a scrape result: header row then one row per
record. -/
def writeCSV (records : List ReviewRecord) : List Char :=
  csvRows (reviewHeader :: records.map recordFields)

/-- A standard CSV reader, as a character scanner: `quoted` is the
inside-quotes mode, `field`/`row` accumulate the current cell and row.
Inside quotes a doubled `""` is a literal quote and a single `"` leaves
quoted mode; outside quotes a `"` opens quoted mode at the start of a
cell, `,` ends the cell and `\n` ends the row. -/
def csvScan : Bool → List Char → List String → List Char → List (List String)
  | false, field, row, [] =>
      if field = [] ∧ row = [] then [] else [row ++ [String.mk field]]
  | true, field, row, [] => [row ++ [String.mk field]]
  | true, field, row, c :: cs =>
      if c = '"' then
        match cs with
        | '"' :: cs2 => csvScan true (field ++ ['"']) row cs2
        | [] => csvScan false field row []
        | c2 :: cs2 => csvScan false field row (c2 :: cs2)
      else csvScan true (field ++ [c]) row cs
  | false, field, row, c :: cs =>
      if c = '"' ∧ field = [] then csvScan true field row cs
      else if c = ',' then csvScan false [] (row ++ [String.mk field]) cs
      else if c = '\n' then (row ++ [String.mk field]) :: csvScan false [] [] cs
      else csvScan false (field ++ [c]) row cs
termination_by _ _ _ cs => cs.length

/-- Re-reading a CSV text: the rows of cells. -/
def parseCSV (cs : List Char) : List (List String) :=
  csvScan false [] [] cs

/-! ## Helper lemmas -/

lemma head?_dropWhile_false {p : Char → Bool} :
    ∀ {l : List Char} {c : Char}, (l.dropWhile p).head? = some c → p c = false := by
  intro l
  induction l with
  | nil => intro c h; simp at h
  | cons a t ih =>
      intro c h
      rw [List.dropWhile_cons] at h
      by_cases hp : p a = true
      · rw [if_pos hp] at h
        exact ih h
      · rw [if_neg hp] at h
        simp only [List.head?_cons, Option.some.injEq] at h
        subst h
        exact Bool.not_eq_true _ ▸ (by simpa using hp)

lemma matchTokThen_eq_some {tok : List Char} {pred : Char → Bool} {cs cap : List Char}
    (h : matchTokThen tok pred cs = some cap) :
    ∃ rest, cs = tok ++ rest ∧ cap = rest.takeWhile pred ∧ cap ≠ [] := by
  unfold matchTokThen at h
  split at h
  · next hp =>
      split at h
      · exact absurd h (by simp)
      · next hcap =>
          have h2 : cap = (cs.drop tok.length).takeWhile pred := (Option.some.inj h).symm
          subst h2
          have hpre := List.prefix_iff_eq_append.mp (List.isPrefixOf_iff_prefix.mp hp)
          exact ⟨cs.drop tok.length, hpre.symm, rfl, hcap⟩
  · exact absurd h (by simp)

lemma matchTokThen_eq_none_of {tok : List Char} {pred : Char → Bool} {rest : List Char}
    (h : matchTokThen tok pred (tok ++ rest) = none) : rest.takeWhile pred = [] := by
  unfold matchTokThen at h
  rw [if_pos (List.isPrefixOf_iff_prefix.mpr ⟨rest, rfl⟩), List.drop_left] at h
  split at h
  · next hcap => exact hcap
  · exact absurd h (by simp)

lemma reSearchTok_eq_some {tok : List Char} {pred : Char → Bool} :
    ∀ {cs cap : List Char}, reSearchTok tok pred cs = some cap →
      ∃ pre rest, cs = (pre ++ tok) ++ rest ∧ cap = rest.takeWhile pred ∧ cap ≠ [] := by
  intro cs
  induction cs with
  | nil => intro cap h; exact absurd h (by simp [reSearchTok])
  | cons c cs0 ih =>
      intro cap h
      rw [reSearchTok] at h
      cases hm : matchTokThen tok pred (c :: cs0) with
      | some cap2 =>
          rw [hm] at h
          have h2 : cap2 = cap := Option.some.inj h
          subst h2
          rcases matchTokThen_eq_some hm with ⟨rest, hcs, hcap, hne⟩
          exact ⟨[], rest, by simpa using hcs, hcap, hne⟩
      | none =>
          rw [hm] at h
          have h2 : reSearchTok tok pred cs0 = some cap := h
          rcases ih h2 with ⟨pre, rest, hcs, hcap, hne⟩
          exact ⟨c :: pre, rest, by simp [hcs], hcap, hne⟩

lemma reSearchTok_eq_none {tok : List Char} {pred : Char → Bool} (htok : tok ≠ []) :
    ∀ {cs : List Char}, reSearchTok tok pred cs = none →
      ∀ pre rest, cs = (pre ++ tok) ++ rest → rest.takeWhile pred = [] := by
  intro cs
  induction cs with
  | nil =>
      intro _ pre rest hcs
      exfalso
      cases tok with
      | nil => exact htok rfl
      | cons a b => simp at hcs
  | cons c cs0 ih =>
      intro h pre rest hcs
      rw [reSearchTok] at h
      cases hm : matchTokThen tok pred (c :: cs0) with
      | some cap =>
          rw [hm] at h
          exact absurd (h : some cap = none) (by simp)
      | none =>
          rw [hm] at h
          have h2 : reSearchTok tok pred cs0 = none := h
          cases pre with
          | nil =>
              simp only [List.nil_append] at hcs
              exact matchTokThen_eq_none_of (hcs ▸ hm)
          | cons p ps =>
              have hcs2 : cs0 = (ps ++ tok) ++ rest := by
                have := congrArg List.tail hcs
                simpa using this
              exact ih h2 ps rest hcs2

lemma extract_appstore_decomp {url s : String}
    (h : extract_app_id url Platform.app_store = some s) :
    s.data ≠ [] ∧ (∀ c ∈ s.data, c.isDigit = true) ∧
      ∃ pre post, url.data = pre ++ ('i' :: 'd' :: s.data) ++ post ∧
        ∀ c, post.head? = some c → c.isDigit = false := by
  unfold extract_app_id at h
  rcases Option.map_eq_some'.mp h with ⟨cap, hcap, hs⟩
  subst hs
  rcases reSearchTok_eq_some hcap with ⟨pre, rest, hurl, hcapeq, hne⟩
  refine ⟨hne, fun c hc => List.mem_takeWhile_imp (hcapeq ▸ hc), pre,
    rest.dropWhile Char.isDigit, ?_, fun c hc => head?_dropWhile_false hc⟩
  rw [hurl, hcapeq]
  simp [List.append_assoc, List.takeWhile_append_dropWhile]

lemma extract_google_decomp {url s : String}
    (h : extract_app_id url Platform.google_play = some s) :
    s.data ≠ [] ∧ (∀ c ∈ s.data, c ≠ '&') ∧
      ∃ pre post, url.data = pre ++ ('i' :: 'd' :: '=' :: s.data) ++ post ∧
        ∀ c, post.head? = some c → c = '&' := by
  unfold extract_app_id at h
  rcases Option.map_eq_some'.mp h with ⟨cap, hcap, hs⟩
  subst hs
  rcases reSearchTok_eq_some hcap with ⟨pre, rest, hurl, hcapeq, hne⟩
  refine ⟨hne, ?_, pre, rest.dropWhile (fun c => c != '&'), ?_,
    fun c hc => by simpa [bne_eq_false_iff_eq] using head?_dropWhile_false hc⟩
  · intro c hc
    have h2 := List.mem_takeWhile_imp (hcapeq ▸ hc)
    simpa [bne_iff_ne] using h2
  rw [hurl, hcapeq]
  simp [List.append_assoc, List.takeWhile_append_dropWhile]

/-! ## C2: platform classification -/

/-- C2 counterexample: a URL containing both `play.google.com` and
`apps.apple.com` refutes the claim that every URL containing
`apps.apple.com` is classified AppStore — the Google test runs first, so
this URL is classified GooglePlay. -/
theorem detect_platform_counterexample :
    strContains "https://play.google.com/store?ref=apps.apple.com" "apps.apple.com" = true ∧
      detect_platform "https://play.google.com/store?ref=apps.apple.com" ≠
        some Platform.app_store :=
  ⟨by decide, by decide⟩

/-- C2 (amended): `detect_platform` is total and deterministic; URLs
containing `play.google.com` are GooglePlay; URLs not containing
`play.google.com` but containing `apps.apple.com` or `itunes.apple.com`
are AppStore; all other URLs are Unsupported (`none`). -/
theorem detect_platform_amended (url : String) :
    (strContains url "play.google.com" = true →
        detect_platform url = some Platform.google_play)
    ∧ (strContains url "play.google.com" = false →
        (strContains url "apps.apple.com" = true ∨ strContains url "itunes.apple.com" = true) →
        detect_platform url = some Platform.app_store)
    ∧ (strContains url "play.google.com" = false →
        strContains url "apps.apple.com" = false →
        strContains url "itunes.apple.com" = false →
        detect_platform url = none) := by
  refine ⟨fun h => by simp [detect_platform, h], fun h1 h2 => ?_,
    fun h1 h2 h3 => by simp [detect_platform, h1, h2, h3]⟩
  rcases h2 with h2 | h2 <;> simp [detect_platform, h1, h2]

/-- Witness for the amended C2 at concrete URLs of all three kinds. -/
theorem detect_platform_amended_witness :
    strContains "https://play.google.com/store/apps/details?id=com.demo.app" "play.google.com" = true
    ∧ detect_platform "https://play.google.com/store/apps/details?id=com.demo.app" =
        some Platform.google_play
    ∧ detect_platform "https://itunes.apple.com/us/app/x/id5" = some Platform.app_store
    ∧ detect_platform "https://example.net/" = none :=
  ⟨by decide,
   (detect_platform_amended _).1 (by decide),
   (detect_platform_amended _).2.1 (by decide) (Or.inr (by decide)),
   (detect_platform_amended _).2.2 (by decide) (by decide) (by decide)⟩

/-! ## C3: Google Play id extraction -/

/-- C3 counterexample: a GooglePlay URL whose query has no `id` parameter
(only `uid`), yet `extract_app_id` returns `"abc"` because the regex
`id=([^&]+)` matches inside `uid=abc`; the claim (return the `id` query
parameter's value, absence when there is none) fails here. -/
theorem google_id_param_counterexample :
    detect_platform "https://play.google.com/store/apps/details?uid=abc" =
        some Platform.google_play
    ∧ idQueryParam "https://play.google.com/store/apps/details?uid=abc" = none
    ∧ extract_app_id "https://play.google.com/store/apps/details?uid=abc" Platform.google_play =
        some "abc" :=
  ⟨by decide, by decide, by decide⟩

/-- C3 (amended): on the GooglePlay path `extract_app_id` returns the
maximal `&`-free run following an occurrence of the literal `id=` (so it
stops at `&`), and absence when `id=` is never followed by a non-`&`
character; in particular, on `...?id=com.example.app&other=1` it returns
`com.example.app`.  This coincides with the `id` query parameter only when
that parameter supplies the first such occurrence. -/
theorem google_id_extraction_amended :
    (∀ url s : String, extract_app_id url Platform.google_play = some s →
        s.data ≠ [] ∧ (∀ c ∈ s.data, c ≠ '&') ∧
          ∃ pre post, url.data = pre ++ ('i' :: 'd' :: '=' :: s.data) ++ post ∧
            ∀ c, post.head? = some c → c = '&')
    ∧ (∀ url : String,
        (¬ ∃ pre c post, url.data = pre ++ 'i' :: 'd' :: '=' :: c :: post ∧ c ≠ '&') →
        extract_app_id url Platform.google_play = none)
    ∧ extract_app_id "https://play.google.com/store/apps/details?id=com.example.app&other=1"
        Platform.google_play = some "com.example.app" := by
  refine ⟨fun url s h => extract_google_decomp h, ?_, by decide⟩
  intro url hno
  cases hE : extract_app_id url Platform.google_play with
  | none => rfl
  | some s =>
      exfalso
      rcases extract_google_decomp hE with ⟨hne, hamp, pre, post, hurl, _⟩
      cases hd : s.data with
      | nil => exact hne hd
      | cons d t =>
          refine hno ⟨pre, d, t ++ post, ?_, hamp d (by rw [hd]; simp)⟩
          rw [hurl, hd]
          simp

/-- Witness for the amended C3: the exact decomposition on the claim's own
example URL. -/
theorem google_id_extraction_amended_witness :
    ("com.example.app" : String).data ≠ [] ∧
      (∀ c ∈ ("com.example.app" : String).data, c ≠ '&') ∧
      ∃ pre post,
        ("https://play.google.com/store/apps/details?id=com.example.app&other=1" : String).data =
          pre ++ ('i' :: 'd' :: '=' :: ("com.example.app" : String).data) ++ post ∧
        ∀ c, post.head? = some c → c = '&' :=
  google_id_extraction_amended.1 _ "com.example.app" google_id_extraction_amended.2.2

/-! ## C4: App Store id extraction -/

/-- C4: on the AppStore path `extract_app_id` returns a non-empty all-digit
string that appears in the URL immediately after the literal token `id`
and is maximal (the next character is not a digit); it returns absence
when no `id` is followed by a digit anywhere; in particular, on
`.../id123456789` it returns `123456789`. -/
theorem appstore_id_extraction :
    (∀ url s : String, extract_app_id url Platform.app_store = some s →
        s.data ≠ [] ∧ (∀ c ∈ s.data, c.isDigit = true) ∧
          ∃ pre post, url.data = pre ++ ('i' :: 'd' :: s.data) ++ post ∧
            ∀ c, post.head? = some c → c.isDigit = false)
    ∧ (∀ url : String,
        (¬ ∃ pre d post, url.data = pre ++ 'i' :: 'd' :: d :: post ∧ d.isDigit = true) →
        extract_app_id url Platform.app_store = none)
    ∧ extract_app_id "https://apps.apple.com/us/app/example/id123456789" Platform.app_store =
        some "123456789" := by
  refine ⟨fun url s h => extract_appstore_decomp h, ?_, by decide⟩
  intro url hno
  cases hE : extract_app_id url Platform.app_store with
  | none => rfl
  | some s =>
      exfalso
      rcases extract_appstore_decomp hE with ⟨hne, hdig, pre, post, hurl, _⟩
      cases hd : s.data with
      | nil => exact hne hd
      | cons d t =>
          refine hno ⟨pre, d, t ++ post, ?_, hdig d (by rw [hd]; simp)⟩
          rw [hurl, hd]
          simp

/-- Witness for C4: the exact decomposition on the claim's own example URL. -/
theorem appstore_id_extraction_witness :
    ("123456789" : String).data ≠ [] ∧
      (∀ c ∈ ("123456789" : String).data, c.isDigit = true) ∧
      ∃ pre post,
        ("https://apps.apple.com/us/app/example/id123456789" : String).data =
          pre ++ ('i' :: 'd' :: ("123456789" : String).data) ++ post ∧
        ∀ c, post.head? = some c → c.isDigit = false :=
  appstore_id_extraction.1 _ "123456789" appstore_id_extraction.2.2

/-! ## C1: fallback on any fetch failure -/

lemma demo_props (p : Platform) (app_id now : String) :
    (get_demo_data p app_id now).length = 3
    ∧ ∀ r ∈ get_demo_data p app_id now,
        r.platform = displayName p ∧ ∃ pre post, r.app_name.data = pre ++ app_id.data ++ post := by
  refine ⟨rfl, ?_⟩
  intro r hr
  simp only [get_demo_data, List.mem_cons, List.not_mem_nil, or_false] at hr
  rcases hr with rfl | rfl | rfl <;>
    exact ⟨rfl, ("Demo App (" : String).data, (")" : String).data, rfl⟩

/-- C1: whenever the external library interaction fails — the import is
unavailable or any exception is raised — each fetcher returns exactly the
3 demo records, every one tagged with the requested platform's display
name and with the requested identifier embedded in `app_name`; the error
is absorbed (the fetchers are total and the result is never empty). -/
theorem fallback_on_failure (app_id : String) (mx : Option Nat) (now : String)
    (g : Fetch GPData) (a : Nat → Fetch ASData)
    (hg : g.isFailure = true) (ha : (a (how_many mx)).isFailure = true) :
    ((scrape_google_play_reviews app_id mx g now).length = 3
      ∧ ∀ r ∈ scrape_google_play_reviews app_id mx g now,
          r.platform = displayName Platform.google_play
          ∧ ∃ pre post, r.app_name.data = pre ++ app_id.data ++ post)
    ∧ ((scrape_app_store_reviews app_id mx a now).length = 3
      ∧ ∀ r ∈ scrape_app_store_reviews app_id mx a now,
          r.platform = displayName Platform.app_store
          ∧ ∃ pre post, r.app_name.data = pre ++ app_id.data ++ post) := by
  constructor
  · cases g with
    | ok d => exact absurd hg (by simp [Fetch.isFailure])
    | importError => exact demo_props Platform.google_play app_id now
    | error m => exact demo_props Platform.google_play app_id now
  · cases haa : a (how_many mx) with
    | ok d => rw [haa] at ha; exact absurd ha (by simp [Fetch.isFailure])
    | importError =>
        unfold scrape_app_store_reviews
        rw [haa]
        exact demo_props Platform.app_store app_id now
    | error m =>
        unfold scrape_app_store_reviews
        rw [haa]
        exact demo_props Platform.app_store app_id now

/-- Witness for C1 at a concrete identifier, with the import failing on one
platform and a runtime error on the other. -/
theorem fallback_on_failure_witness :
    (Fetch.importError : Fetch GPData).isFailure = true
    ∧ ((fun _ : Nat => (Fetch.error "boom" : Fetch ASData)) (how_many (some 500))).isFailure = true
    ∧ (scrape_google_play_reviews "com.demo.app" (some 500) Fetch.importError
        "2024-01-01 00:00:00").length = 3 :=
  ⟨rfl, rfl,
    (fallback_on_failure "com.demo.app" (some 500) "2024-01-01 00:00:00" Fetch.importError
      (fun _ => Fetch.error "boom") rfl rfl).1.1⟩

/-! ## C5: status of UnsupportedPlatform / IdentifierNotFound replies -/

/-- C5 counterexample: a well-formed URL of no known storefront produces a
`500` response (the `ValueError` lands in the route's catch-all), not a
400-class one as claimed. -/
theorem scrape_unsupported_counterexample :
    scrapeHandler "https://example.com/page" (some 500) Fetch.importError
        (fun _ => Fetch.importError) "now" "ts" =
      ScrapeResp.failure 500
        "Unsupported URL. Please provide a Google Play Store or Apple App Store URL."
    ∧ validURLFormat "https://example.com/page" = true
    ∧ detect_platform "https://example.com/page" = none
    ∧ ¬ (400 ≤ (scrapeHandler "https://example.com/page" (some 500) Fetch.importError
          (fun _ => Fetch.importError) "now" "ts").status
        ∧ (scrapeHandler "https://example.com/page" (some 500) Fetch.importError
          (fun _ => Fetch.importError) "now" "ts").status < 500) :=
  ⟨by decide, by decide, by decide, by decide⟩

/-- C5 (amended): for a syntactically well-formed URL of no known
storefront, and for a well-formed storefront URL with no extractable
identifier, the reply is status `500` carrying the human-readable
`ValueError` message (the route's catch-all `except` echoes `str(e)`). -/
theorem scrape_error_status (url : String) (mx : Option Nat) (g : Fetch GPData)
    (a : Nat → Fetch ASData) (now ts : String)
    (hvalid : validURLFormat (pyStrip url) = true) :
    (detect_platform (pyStrip url) = none →
        scrapeHandler url mx g a now ts = ScrapeResp.failure 500
          "Unsupported URL. Please provide a Google Play Store or Apple App Store URL.")
    ∧ (∀ p, detect_platform (pyStrip url) = some p →
        extract_app_id (pyStrip url) p = none →
        scrapeHandler url mx g a now ts =
          ScrapeResp.failure 500 "Could not extract app ID from URL.") := by
  have hne : ¬ pyStrip url = "" := by
    intro h0
    rw [h0] at hvalid
    exact absurd hvalid (by decide)
  constructor
  · intro hd
    have hs : scrape_reviews (pyStrip url) mx g a now = Except.error
        "Unsupported URL. Please provide a Google Play Store or Apple App Store URL." := by
      unfold scrape_reviews
      rw [hd]
    simp only [scrapeHandler]
    rw [if_neg hne, if_neg (by simp [hvalid]), hs]
  · intro p hd hx
    have hs : scrape_reviews (pyStrip url) mx g a now = Except.error
        "Could not extract app ID from URL." := by
      unfold scrape_reviews
      rw [hd]
      simp only [hx]
    simp only [scrapeHandler]
    rw [if_neg hne, if_neg (by simp [hvalid]), hs]

/-- Witness for the amended C5: both error shapes at concrete URLs. -/
theorem scrape_error_status_witness :
    validURLFormat (pyStrip "https://example.org/") = true
    ∧ scrapeHandler "https://example.org/" (some 500) Fetch.importError
        (fun _ => Fetch.importError) "n" "t" =
      ScrapeResp.failure 500
        "Unsupported URL. Please provide a Google Play Store or Apple App Store URL."
    ∧ scrapeHandler "https://play.google.com/store/apps/details" (some 500) Fetch.importError
        (fun _ => Fetch.importError) "n" "t" =
      ScrapeResp.failure 500 "Could not extract app ID from URL." :=
  ⟨by decide,
   (scrape_error_status "https://example.org/" (some 500) Fetch.importError
      (fun _ => Fetch.importError) "n" "t" (by decide)).1 (by decide),
   (scrape_error_status "https://play.google.com/store/apps/details" (some 500) Fetch.importError
      (fun _ => Fetch.importError) "n" "t" (by decide)).2 Platform.google_play
      (by decide) (by decide)⟩

/-! ## C6: count limiting -/

/-- A sample upstream Google Play review used by the C6 counterexample. -/
def gpRev0 : GPReview :=
  { userName := "u", score := 5, content := "c", at_fmt := "d", thumbsUpCount := 1 }

/-- A successful 1-review Google Play library outcome. -/
def gpOut0 : Fetch GPData := Fetch.ok { title := "T", result := [gpRev0] }

/-- C6 counterexample: with `max_reviews = 0` the Google Play guard
`if max_reviews and len(result) > max_reviews` is skipped, so a 1-review
upstream result yields 1 record — more than the requested maximum of 0,
refuting "at most max_reviews records" for every maximum. -/
theorem truncation_counterexample :
    (scrape_google_play_reviews "app" (some 0) gpOut0 "now").length = 1
    ∧ ¬ (scrape_google_play_reviews "app" (some 0) gpOut0 "now").length ≤ 0 :=
  ⟨rfl, by decide⟩

/-- C6 (amended): for every positive maximum, a successful Google Play
fetch returns the upstream list truncated to the prefix of at most
`max_reviews` records (no sampling), the clamp mattering only when the
source returns more; the App Store path instead passes the maximum to the
external source as the requested count and maps its entire reply
one-to-one, so its length is the source's reply length. -/
theorem truncation_amended (app_id title now : String) (mx : Nat) (hmx : 0 < mx)
    (revs : List GPReview) :
    (scrape_google_play_reviews app_id (some mx) (Fetch.ok { title := title, result := revs }) now
        = (revs.take mx).map (gpToRecord title))
    ∧ (revs.length ≤ mx →
        scrape_google_play_reviews app_id (some mx) (Fetch.ok { title := title, result := revs })
          now = revs.map (gpToRecord title))
    ∧ (∀ (src : Nat → Fetch ASData) (d : ASData), src mx = Fetch.ok d →
        (scrape_app_store_reviews app_id (some mx) src now).length = d.reviews.length) := by
  refine ⟨?_, ?_, ?_⟩
  · show (if (mx != 0) = true ∧ mx < revs.length then revs.take mx else revs).map
        (gpToRecord title) = (revs.take mx).map (gpToRecord title)
    split
    · rfl
    · next hcond =>
        have hle : revs.length ≤ mx := by
          rcases Nat.lt_or_ge mx revs.length with hlt | hge
          · exact absurd ⟨by simpa using hmx.ne', hlt⟩ hcond
          · exact hge
        rw [List.take_of_length_le hle]
  · intro hle
    show (if (mx != 0) = true ∧ mx < revs.length then revs.take mx else revs).map
        (gpToRecord title) = revs.map (gpToRecord title)
    rw [if_neg]
    rintro ⟨-, hlt⟩
    omega
  · intro src d hsrc
    have hhm : how_many (some mx) = mx := by
      have h0 : (mx != 0) = true := by simpa using hmx.ne'
      simp [how_many, h0]
    have hs2 : src (how_many (some mx)) = Fetch.ok d := by rw [hhm]; exact hsrc
    unfold scrape_app_store_reviews
    rw [hs2]
    exact List.length_map _ _

/-- Three sample upstream Google Play reviews for the amended-C6 witness. -/
def gpRevABC : List GPReview :=
  [{ userName := "u1", score := 5, content := "c1", at_fmt := "d1", thumbsUpCount := 1 },
   { userName := "u2", score := 4, content := "c2", at_fmt := "d2", thumbsUpCount := 2 },
   { userName := "u3", score := 3, content := "c3", at_fmt := "d3", thumbsUpCount := 3 }]

/-- Witness for the amended C6: maximum 2 clamps a 3-review upstream list
to its 2-element prefix. -/
theorem truncation_amended_witness :
    0 < 2
    ∧ scrape_google_play_reviews "a" (some 2) (Fetch.ok { title := "T", result := gpRevABC })
        "now" = (gpRevABC.take 2).map (gpToRecord "T") :=
  ⟨by decide, (truncation_amended "a" "T" "now" 2 (by decide) gpRevABC).1⟩

/-! ## C7: helpful_count invariant -/

/-- C7 counterexample: on the fallback path the App-Store-tagged demo
records carry non-zero helpful counts (the first one is 15), refuting
"every record labelled Apple App Store has helpful_count 0". -/
theorem appstore_helpful_counterexample :
    ((scrape_app_store_reviews "app" (some 500) (fun _ => Fetch.importError) "now").map
        fun r => (r.platform, r.helpful_count)).head? = some ("Apple App Store", 15)
    ∧ (15 : Int) ≠ 0 :=
  ⟨rfl, by decide⟩

/-- C7 (amended): every record from a successful App Store fetch has
`helpful_count = 0` (that source does not provide it); the fallback
records carry the fixed counts 15, 8, 22; and every record either fetcher
can produce, on any path, has a non-negative `helpful_count`. -/
theorem helpful_count_amended (app_id : String) (mx : Option Nat) (now : String)
    (src : Nat → Fetch ASData) (g : Fetch GPData) :
    (∀ d, src (how_many mx) = Fetch.ok d →
        ∀ r ∈ scrape_app_store_reviews app_id mx src now, r.helpful_count = 0)
    ∧ (∀ r ∈ scrape_app_store_reviews app_id mx src now, 0 ≤ r.helpful_count)
    ∧ (∀ r ∈ scrape_google_play_reviews app_id mx g now, 0 ≤ r.helpful_count) := by
  refine ⟨?_, ?_, ?_⟩
  · intro d hd r hr
    unfold scrape_app_store_reviews at hr
    rw [hd] at hr
    have hr2 : r ∈ d.reviews.map (asToRecord (resolveASName d.app_name app_id)) := hr
    rcases List.mem_map.mp hr2 with ⟨x, -, rfl⟩
    rfl
  · intro r hr
    unfold scrape_app_store_reviews at hr
    cases hsa : src (how_many mx) with
    | ok d =>
        rw [hsa] at hr
        have hr2 : r ∈ d.reviews.map (asToRecord (resolveASName d.app_name app_id)) := hr
        rcases List.mem_map.mp hr2 with ⟨x, -, rfl⟩
        exact le_refl 0
    | importError =>
        rw [hsa] at hr
        have hr2 : r ∈ get_demo_data Platform.app_store app_id now := hr
        simp only [get_demo_data, List.mem_cons, List.not_mem_nil, or_false] at hr2
        rcases hr2 with rfl | rfl | rfl <;> norm_num
    | error m =>
        rw [hsa] at hr
        have hr2 : r ∈ get_demo_data Platform.app_store app_id now := hr
        simp only [get_demo_data, List.mem_cons, List.not_mem_nil, or_false] at hr2
        rcases hr2 with rfl | rfl | rfl <;> norm_num
  · intro r hr
    cases g with
    | ok d =>
        have hr2 : r ∈ (if truthyNat mx = true ∧ mx.getD 0 < d.result.length then
            d.result.take (mx.getD 0) else d.result).map (gpToRecord d.title) := hr
        rcases List.mem_map.mp hr2 with ⟨x, -, rfl⟩
        exact Int.natCast_nonneg x.thumbsUpCount
    | importError =>
        have hr2 : r ∈ get_demo_data Platform.google_play app_id now := hr
        simp only [get_demo_data, List.mem_cons, List.not_mem_nil, or_false] at hr2
        rcases hr2 with rfl | rfl | rfl <;> norm_num
    | error m =>
        have hr2 : r ∈ get_demo_data Platform.google_play app_id now := hr
        simp only [get_demo_data, List.mem_cons, List.not_mem_nil, or_false] at hr2
        rcases hr2 with rfl | rfl | rfl <;> norm_num

/-- A sample upstream App Store review for the amended-C7 witness. -/
def asRev0 : ASReview :=
  { userName := "u", rating := 5, review := "nice", date := some "2024" }

/-- A successful 1-review App Store library outcome. -/
def asDat0 : ASData := { app_name := some "X", reviews := [asRev0] }

/-- The App Store library succeeding with `asDat0` whatever count is asked. -/
def asSrc0 : Nat → Fetch ASData := fun _ => Fetch.ok asDat0

/-- Witness for the amended C7: a concrete successful App Store fetch whose
single produced record has helpful_count 0. -/
theorem helpful_count_amended_witness :
    asSrc0 (how_many (some 500)) = Fetch.ok asDat0
    ∧ (asToRecord (resolveASName (some "X") "a") asRev0).helpful_count = 0 :=
  ⟨rfl,
   (helpful_count_amended "a" (some 500) "n" asSrc0 Fetch.importError).1 asDat0 rfl
     (asToRecord (resolveASName (some "X") "a") asRev0) (by decide)⟩

/-! ## C9: generated filename -/

/-- C9: whenever the handler reaches its success arm (a non-empty review
list), the returned filename is
`reviews_<sanitized-app-name>_<timestamp>.csv`, the sanitized name being
the first record's `app_name` with spaces and `/` replaced by `_` and
truncated to 50 characters (`sanitize_app_name`). -/
theorem filename_format (url : String) (mx : Option Nat) (g : Fetch GPData)
    (a : Nat → Fetch ASData) (now ts : String) (r0 : ReviewRecord) (rest : List ReviewRecord)
    (hvalid : validURLFormat (pyStrip url) = true)
    (hs : scrape_reviews (pyStrip url) mx g a now = Except.ok (r0 :: rest)) :
    scrapeHandler url mx g a now ts =
      ScrapeResp.success ("Successfully scraped " ++ toString (r0 :: rest).length ++ " reviews")
        ("reviews_" ++ sanitize_app_name r0.app_name ++ "_" ++ ts ++ ".csv")
        (r0 :: rest).length r0.app_name := by
  have hne : ¬ pyStrip url = "" := by
    intro h0
    rw [h0] at hvalid
    exact absurd hvalid (by decide)
  simp only [scrapeHandler]
  rw [if_neg hne, if_neg (by simp [hvalid]), hs]

/-- A sample upstream Google Play review for the C9 witness. -/
def gpRev9 : GPReview :=
  { userName := "u", score := 4, content := "ok", at_fmt := "2024", thumbsUpCount := 2 }

/-- A successful 1-review Google Play library outcome named `My App`. -/
def gpDat9 : GPData := { title := "My App", result := [gpRev9] }

/-- The record the fetcher builds from `gpRev9`. -/
def rec9 : ReviewRecord := gpToRecord "My App" gpRev9

/-- Witness for C9 on a concrete Google Play scrape. -/
theorem filename_format_witness :
    validURLFormat (pyStrip "https://play.google.com/store/apps/details?id=com.demo.app") = true
    ∧ scrapeHandler "https://play.google.com/store/apps/details?id=com.demo.app" (some 500)
        (Fetch.ok gpDat9) (fun _ => Fetch.importError) "now" "20240101_000000" =
      ScrapeResp.success
        ("Successfully scraped " ++ toString (rec9 :: ([] : List ReviewRecord)).length ++
          " reviews")
        ("reviews_" ++ sanitize_app_name rec9.app_name ++ "_" ++ "20240101_000000" ++ ".csv")
        (rec9 :: ([] : List ReviewRecord)).length rec9.app_name :=
  ⟨by decide,
   filename_format "https://play.google.com/store/apps/details?id=com.demo.app" (some 500)
     (Fetch.ok gpDat9) (fun _ => Fetch.importError) "now" "20240101_000000" rec9 []
     (by decide) rfl⟩

/-! ## C10: falsy max_reviews disables the limit -/

/-- C10: a falsy `max_reviews` (`0` or JSON `null`) short-circuits the
Google Play guard `if max_reviews and len(result) > max_reviews`, so the
fetcher returns the full upstream result — one record per upstream review,
never zero records because of the limit. -/
theorem falsy_max_disables_limit (app_id title now : String) (revs : List GPReview) :
    scrape_google_play_reviews app_id (some 0) (Fetch.ok { title := title, result := revs }) now
        = revs.map (gpToRecord title)
    ∧ scrape_google_play_reviews app_id none (Fetch.ok { title := title, result := revs }) now
        = revs.map (gpToRecord title)
    ∧ (scrape_google_play_reviews app_id (some 0)
        (Fetch.ok { title := title, result := revs }) now).length = revs.length :=
  ⟨rfl, rfl, List.length_map _ _⟩

/-! ## C8: CSV round-trip -/

lemma csvScan_false_cons (field : List Char) (row : List String) (c : Char) (cs : List Char) :
    csvScan false field row (c :: cs) =
      if c = '"' ∧ field = [] then csvScan true field row cs
      else if c = ',' then csvScan false [] (row ++ [String.mk field]) cs
      else if c = '\n' then (row ++ [String.mk field]) :: csvScan false [] [] cs
      else csvScan false (field ++ [c]) row cs := by
  rw [csvScan.eq_def]

lemma csvScan_true_cons (field : List Char) (row : List String) (c : Char) (cs : List Char)
    (hc : ¬ c = '"') :
    csvScan true field row (c :: cs) = csvScan true (field ++ [c]) row cs := by
  rw [csvScan.eq_def]
  show (if c = '"' then
      (match cs with
       | '"' :: cs2 => csvScan true (field ++ ['"']) row cs2
       | [] => csvScan false field row []
       | c2 :: cs2 => csvScan false field row (c2 :: cs2))
    else csvScan true (field ++ [c]) row cs) = csvScan true (field ++ [c]) row cs
  rw [if_neg hc]

lemma csvScan_literal_chars :
    ∀ (f : List Char), (∀ c ∈ f, ¬ c = ',' ∧ ¬ c = '\n' ∧ ¬ c = '"') →
      ∀ (acc : List Char) (row : List String) (rest : List Char),
        csvScan false acc row (f ++ rest) = csvScan false (acc ++ f) row rest := by
  intro f
  induction f with
  | nil => intro _ acc row rest; simp
  | cons c t ih =>
      intro hf acc row rest
      have hc := hf c (List.mem_cons_self c t)
      have hstep : csvScan false acc row (c :: (t ++ rest)) =
          csvScan false (acc ++ [c]) row (t ++ rest) := by
        rw [csvScan_false_cons,
          if_neg (fun hand => hc.2.2 hand.1), if_neg hc.1, if_neg hc.2.1]
      calc csvScan false acc row ((c :: t) ++ rest)
          = csvScan false (acc ++ [c]) row (t ++ rest) := hstep
        _ = csvScan false ((acc ++ [c]) ++ t) row rest :=
            ih (fun x hx => hf x (List.mem_cons_of_mem c hx)) (acc ++ [c]) row rest
        _ = csvScan false (acc ++ (c :: t)) row rest := by simp

lemma csvScan_quoted_body :
    ∀ (f : List Char) (acc : List Char) (row : List String) (d : Char) (rs : List Char),
      (d = ',' ∨ d = '\n') →
      csvScan true acc row (csvEscapeChars f ++ '"' :: d :: rs) =
        csvScan false (acc ++ f) row (d :: rs) := by
  intro f
  induction f with
  | nil =>
      intro acc row d rs hd
      rcases hd with rfl | rfl
      · show csvScan true acc row ('"' :: ',' :: rs) = csvScan false (acc ++ []) row (',' :: rs)
        rw [List.append_nil, csvScan.eq_def]
        rfl
      · show csvScan true acc row ('"' :: '\n' :: rs) = csvScan false (acc ++ []) row ('\n' :: rs)
        rw [List.append_nil, csvScan.eq_def]
        rfl
  | cons c t ih =>
      intro acc row d rs hd
      by_cases hc : c = '"'
      · subst hc
        have he : csvEscapeChars ('"' :: t) = '"' :: '"' :: csvEscapeChars t := rfl
        rw [he]
        have hstep : csvScan true acc row ('"' :: '"' :: (csvEscapeChars t ++ '"' :: d :: rs)) =
            csvScan true (acc ++ ['"']) row (csvEscapeChars t ++ '"' :: d :: rs) := by
          rw [csvScan.eq_def]
          rfl
        calc csvScan true acc row (('"' :: '"' :: csvEscapeChars t) ++ '"' :: d :: rs)
            = csvScan true (acc ++ ['"']) row (csvEscapeChars t ++ '"' :: d :: rs) := hstep
          _ = csvScan false ((acc ++ ['"']) ++ t) row (d :: rs) := ih (acc ++ ['"']) row d rs hd
          _ = csvScan false (acc ++ ('"' :: t)) row (d :: rs) := by simp
      · have he : csvEscapeChars (c :: t) = c :: csvEscapeChars t := by
          simp [csvEscapeChars, hc]
        rw [he]
        calc csvScan true acc row ((c :: csvEscapeChars t) ++ '"' :: d :: rs)
            = csvScan true (acc ++ [c]) row (csvEscapeChars t ++ '"' :: d :: rs) :=
              csvScan_true_cons acc row c _ hc
          _ = csvScan false ((acc ++ [c]) ++ t) row (d :: rs) := ih (acc ++ [c]) row d rs hd
          _ = csvScan false (acc ++ (c :: t)) row (d :: rs) := by simp

lemma csvScan_field (f : String) (row : List String) (d : Char) (rs : List Char)
    (hd : d = ',' ∨ d = '\n') :
    csvScan false [] row (csvField f ++ d :: rs) = csvScan false f.data row (d :: rs) := by
  by_cases hq : csvNeedsQuote f = true
  · have he : csvField f = '"' :: (csvEscapeChars f.data ++ ['"']) := by
      simp [csvField, hq]
    rw [he]
    have hassoc : ('"' :: (csvEscapeChars f.data ++ ['"'])) ++ d :: rs =
        '"' :: (csvEscapeChars f.data ++ '"' :: d :: rs) := by simp
    rw [hassoc]
    have hopen : csvScan false [] row ('"' :: (csvEscapeChars f.data ++ '"' :: d :: rs)) =
        csvScan true [] row (csvEscapeChars f.data ++ '"' :: d :: rs) := by
      rw [csvScan_false_cons, if_pos ⟨rfl, rfl⟩]
    rw [hopen, csvScan_quoted_body f.data [] row d rs hd]
    rfl
  · have he : csvField f = f.data := by simp [csvField, hq]
    rw [he]
    have hchars : ∀ c ∈ f.data, ¬ c = ',' ∧ ¬ c = '\n' ∧ ¬ c = '"' := by
      intro c hcmem
      have hq2 : csvNeedsQuote f = false := Bool.eq_false_iff.mpr hq
      have h2 := List.any_eq_false.mp hq2 c hcmem
      simp only [Bool.not_eq_true, Bool.or_eq_false_iff, decide_eq_false_iff_not] at h2
      obtain ⟨⟨⟨h3, h4⟩, h5⟩, -⟩ := h2
      exact ⟨h3, h5, h4⟩
    have := csvScan_literal_chars f.data hchars [] row (d :: rs)
    simpa using this

lemma csvScan_row :
    ∀ (fields : List String), fields ≠ [] →
      ∀ (row : List String) (rest : List Char),
        csvScan false [] row (csvRow fields ++ '\n' :: rest) =
          (row ++ fields) :: csvScan false [] [] rest := by
  intro fields
  induction fields with
  | nil => intro h; exact absurd rfl h
  | cons f t ih =>
      intro _ row rest
      cases t with
      | nil =>
          show csvScan false [] row (csvField f ++ '\n' :: rest) = (row ++ [f]) :: _
          rw [csvScan_field f row '\n' rest (Or.inr rfl), csvScan_false_cons,
            if_neg (fun hand => by exact absurd hand.1 (by decide)), if_neg (by decide),
            if_pos rfl]
      | cons g t2 =>
          have he : csvRow (f :: g :: t2) = csvField f ++ ',' :: csvRow (g :: t2) := rfl
          have hassoc : (csvField f ++ ',' :: csvRow (g :: t2)) ++ '\n' :: rest =
              csvField f ++ ',' :: (csvRow (g :: t2) ++ '\n' :: rest) := by simp
          rw [he, hassoc, csvScan_field f row ',' _ (Or.inl rfl), csvScan_false_cons,
            if_neg (fun hand => by exact absurd hand.1 (by decide)), if_pos rfl,
            ih (by simp) (row ++ [f]) rest]
          simp

lemma csvScan_rows :
    ∀ (rows : List (List String)), (∀ r ∈ rows, r ≠ []) →
      csvScan false [] [] (csvRows rows) = rows := by
  intro rows
  induction rows with
  | nil => intro _; simp [csvRows, csvScan]
  | cons r rs ih =>
      intro hall
      show csvScan false [] [] (csvRow r ++ '\n' :: csvRows rs) = r :: rs
      rw [csvScan_row r (hall r (List.mem_cons_self r rs)) [] (csvRows rs),
        ih (fun x hx => hall x (List.mem_cons_of_mem r hx))]
      simp

/-- C8: writing any non-empty list of records (the only lists the handler
writes) and re-reading the CSV yields the header row — the `ReviewRecord`
field names in order — followed by exactly one row per record whose cells
are the record's field values in that column order; in particular N records
round-trip to N data rows. -/
theorem csv_round_trip (records : List ReviewRecord) (hne : records ≠ []) :
    parseCSV (writeCSV records) = reviewHeader :: records.map recordFields
    ∧ (parseCSV (writeCSV records)).length = records.length + 1 := by
  have hmain : parseCSV (writeCSV records) = reviewHeader :: records.map recordFields := by
    unfold parseCSV writeCSV
    apply csvScan_rows
    intro r hr
    rcases List.mem_cons.mp hr with rfl | hr2
    · simp [reviewHeader]
    · rcases List.mem_map.mp hr2 with ⟨x, -, rfl⟩
      simp [recordFields]
  refine ⟨hmain, ?_⟩
  rw [hmain]
  simp

/-- Witness for C8: one concrete record whose fields exercise the quoting
paths (comma, quote, newline). -/
def sampleRecord : ReviewRecord :=
  { app_name := "Demo App (x)", reviewer_name := "A, B", rating := 5,
    review_text := "Nice \"app\"\nreally", review_date := "2024-01-01 00:00:00",
    helpful_count := 3, platform := "Google Play Store" }

/-- Witness for C8 at a concrete one-record list. -/
theorem csv_round_trip_witness :
    [sampleRecord] ≠ ([] : List ReviewRecord)
    ∧ parseCSV (writeCSV [sampleRecord]) = reviewHeader :: [sampleRecord].map recordFields :=
  ⟨by simp, (csv_round_trip [sampleRecord] (by simp)).1⟩

end AppRender
